import Mathlib

/-!
A verification development for `ris_from_inspirehep.py`, a one-shot batch
script that fetches bibliographic records from the INSPIRE-HEP literature
API, filters them by author affiliation and a DOI exclusion set, and
renders the survivors as RIS text blocks.

The script's pure core is embedded shallowly:
* Python string operations (`strip`, `split`, `replace`, `startswith`,
  `join`, `sorted`) are modelled on `List Char` / `String` by structural
  recursion, matching CPython semantics (left-to-right non-overlapping
  scan for `replace` and `split`, code-point lexicographic order for
  `sorted`).
* raised exceptions (`RuntimeError`, `AssertionError`, `IndexError`,
  `NameError`) become the error side of `Except RisError`.
* JSON records become structures whose optional keys (those the script
  probes with `in`) are `Option`-valued, and whose `{"value": ...}` /
  `{"title": ...}` wrapper objects are flattened to their payload string.
* the `__main__` paginated fetch loop becomes a function over a finite
  script of HTTP responses, consumed one response per loop iteration.
-/

namespace RisDump

/-! ### Python string primitives on `List Char`

`replGo`/`splitGo` carry a skip counter so that after a pattern match the
scan resumes past the matched occurrence; this keeps the recursion
structural (hence kernel-evaluable) while agreeing with CPython's
left-to-right non-overlapping scan.  The `pat ≠ []` guard is never
exercised by the script (all separators and patterns are non-empty
literals). -/

/-- Scanner for Python's `str.replace(pat, rep)`; the `Nat` argument is the
number of characters still to skip after an accepted match. -/
def replGo (pat rep : List Char) : List Char → Nat → List Char
  | [], _ => []
  | _ :: cs, k+1 => replGo pat rep cs k
  | c :: cs, 0 =>
    if pat ≠ [] ∧ pat.isPrefixOf (c :: cs) then
      rep ++ replGo pat rep cs (pat.length - 1)
    else
      c :: replGo pat rep cs 0

/-- Python's `s.replace(pat, rep)` (all occurrences, left to right). -/
def replAll (pat rep s : List Char) : List Char := replGo pat rep s 0

/-- Scanner for Python's `str.split(sep)`; the `Nat` argument is the number
of characters still to skip after an accepted separator match. -/
def splitGo (sep : List Char) : List Char → Nat → List (List Char)
  | [], _ => [[]]
  | _ :: cs, k+1 => splitGo sep cs k
  | c :: cs, 0 =>
    if sep ≠ [] ∧ sep.isPrefixOf (c :: cs) then
      [] :: splitGo sep cs (sep.length - 1)
    else
      match splitGo sep cs 0 with
      | [] => [[c]]
      | h :: t => (c :: h) :: t

/-- Python's `s.split(sep)` for a non-empty separator. -/
def splitOnSub (sep s : List Char) : List (List Char) := splitGo sep s 0

/-- Python's `pat in s` substring test. -/
def containsSub (pat : List Char) : List Char → Bool
  | [] => pat.isEmpty
  | c :: cs => pat.isPrefixOf (c :: cs) || containsSub pat cs

/-- Python's `s.strip()`: drop leading and trailing whitespace. -/
def pyStrip (s : List Char) : List Char :=
  ((s.dropWhile Char.isWhitespace).reverse.dropWhile Char.isWhitespace).reverse

/-- Python's `sep.join(parts)`. -/
def pyJoin (sep : String) : List String → String
  | [] => ""
  | [x] => x
  | x :: xs => x ++ sep ++ pyJoin sep xs

/-- Python's `≤` on strings: code-point lexicographic order. -/
def strLeB : List Char → List Char → Bool
  | [], _ => true
  | _ :: _, [] => false
  | x :: xs, y :: ys =>
    if x.toNat < y.toNat then true
    else if x.toNat = y.toNat then strLeB xs ys else false

/-- Insert into an ascending list, keeping earlier-inserted equal elements
first (Python's sort is stable; on equal strings this is unobservable). -/
def insertSorted (x : String) : List String → List String
  | [] => [x]
  | y :: ys => if strLeB x.data y.data then x :: y :: ys else y :: insertSorted x ys

/-- Python's `sorted` on a list of strings (ascending, code-point
lexicographic, as CPython compares `str`). -/
def pySorted (l : List String) : List String := l.foldr insertSorted []

/-- Python's `str.upper()` for the ASCII field codes used by the script. -/
def charUpper (c : Char) : Char :=
  if 97 ≤ c.toNat ∧ c.toNat ≤ 122 then Char.ofNat (c.toNat - 32) else c

/-- Python's `s.upper()`. -/
def pyUpper (s : String) : String := String.mk (s.data.map charUpper)

/-! ### Static registry data (source lines 43–59) -/

/-- `AFFIL = 'NICPB, Tallinn'` — the home affiliation. -/
def AFFIL : String := "NICPB, Tallinn"

/-- The `ALIASES` table: display-name variants resolved to canonical form. -/
def ALIASES : List (String × String) :=
  [("Carvalho Antunes De Oliveira, Alexandra", "Oliveira, Alexandra"),
   ("Ehataht, Karl", "Ehatäht, Karl")]

/-- `ALIASES[x] if x in ALIASES else x` (source line 108). -/
def aliasOf (a : String) : String := (ALIASES.lookup a).getD a

/-- The `DOCTYPES` table mapping source document-type labels to RIS codes. -/
def DOCTYPES : List (String × String) :=
  [("article", "JOUR"), ("conference paper", "CONF")]

/-! ### The data model (JSON records) -/

/-- One `publication_info` entry.  `year` is probed with `in` by the code,
so it is optional; the journal fields are read unconditionally on the
selected entry. -/
structure PubInfo where
  year : Option Nat
  journal_title : String
  journal_volume : String
  page_start : Option String
  page_end : Option String
deriving DecidableEq, Repr

/-- One author object: `full_name` plus the optional `affiliations` list,
flattened to its `value` strings. -/
structure Author where
  full_name : String
  affiliations : Option (List String)
deriving DecidableEq, Repr

/-- One `documents` entry; the code probes `'url' in documents[0]`. -/
structure DocumentObj where
  url : Option String
deriving DecidableEq, Repr

/-- One `urls` entry; the code probes `'value' in urls[0]`. -/
structure UrlObj where
  value : Option String
deriving DecidableEq, Repr

/-- `json_entry['metadata']`.  Keys the code probes with `in`
(`dois`, `collaborations`, `documents`, `urls`) are optional; the rest are
read unconditionally.  `dois`, `titles` and `collaborations` are flattened
from their `{'value'|'title': ...}` wrappers to the payload strings. -/
structure Metadata where
  dois : Option (List String)
  publication_info : List PubInfo
  titles : List String
  document_type : List String
  authors : List Author
  collaborations : Option (List String)
  documents : Option (List DocumentObj)
  urls : Option (List UrlObj)
deriving DecidableEq, Repr

/-- One hit of the API response: `json_entry['id']` and its metadata. -/
structure JsonEntry where
  id : String
  metadata : Metadata
deriving DecidableEq, Repr

/-! ### Errors

Each constructor stands for one way the Python code can raise. -/

/-- The exceptions the script's core can raise. -/
inductive RisError where
  /-- `IndexError`: subscripting an empty JSON list with `[0]` or `[-1]`. -/
  | indexError
  /-- `NameError`: the force-append branch of `select` references the
  undefined variable `author` (source line 103). -/
  | nameError
  /-- `AssertionError`: `assert(arr)` in `join_with_and` (source line 80). -/
  | assertionError
  /-- `RuntimeError("Unexpected document type: ...")` (source line 76). -/
  | unexpectedDoctype (label : String)
  /-- `RuntimeError("No publication year found in the above entry")`; the
  offending metadata is printed, i.e. surfaced with the error
  (source lines 130–132). -/
  | noYear (md : Metadata)
  /-- `RuntimeError("Not a RIS file: ...")` in `exclude_dois_from`
  (source line 194). -/
  | notARisFile
deriving DecidableEq, Repr

/-! ### The program functions (source lines 74–198) -/

/-- `get_doctype` (source lines 74–77): `DOCTYPES[doctype]`, raising
`RuntimeError` on an unknown label. -/
def get_doctype (doctype : String) : Except RisError String :=
  match DOCTYPES.lookup doctype with
  | none => .error (.unexpectedDoctype doctype)
  | some code => .ok code

/-- `join_with_and` (source lines 79–88).  `assert(arr)` raises on an empty
list; one element is returned as is; two are joined with `' and '`; three
or more join all but the last with `', '` and then append `' and '` and the
last (note: no comma before the final `and`). -/
def join_with_and (arr : List String) : Except RisError String :=
  match arr with
  | [] => .error .assertionError
  | [a] => .ok a
  | [a, b] => .ok (a ++ " and " ++ b)
  | _ => .ok (pyJoin ", " arr.dropLast ++ " and " ++ arr.getLastD "")

/-- The candidate-building loop of `select` (source lines 91–96): keep the
`full_name` of every author whose affiliation list is present and contains
`AFFIL`, in input order. -/
def affil_candidates (authors : List Author) : List String :=
  authors.filterMap fun a =>
    match a.affiliations with
    | none => none
    | some affs => if AFFIL ∈ affs then some a.full_name else none

/-- `select` (source lines 90–110).  When neither the target name nor its
alias appears among the candidates and `keep_affiliation` is set, the
source executes `selected_authors.append(author)` where `author` is an
undefined variable, so Python raises `NameError` (modelled as
`.error .nameError`). -/
def select (authors : List Author) (name : String) (keep_affiliation : Bool) :
    Except RisError (List String) :=
  let selected_authors := affil_candidates authors
  let result : Except RisError (List String) :=
    if name ∈ selected_authors then .ok selected_authors
    else
      match ALIASES.lookup name with
      | some aliased =>
        if aliased ∈ selected_authors then .ok selected_authors
        else if keep_affiliation then .error .nameError else .ok []
      | none => if keep_affiliation then .error .nameError else .ok []
  match result with
  | .error er => .error er
  | .ok sel => .ok (pySorted (sel.map aliasOf))

/-- The year-search loop of `get_ris` (source lines 125–133): the first
`publication_info` entry carrying a `year` key. -/
def findYear : List PubInfo → Option PubInfo
  | [] => none
  | p :: ps => if p.year.isSome then some p else findYear ps

/-- The availability block of `get_ris` (source lines 150–153):
`if 'documents' in md and 'url' in md['documents'][0]` …
`elif 'urls' in md and 'value' in md['urls'][0]` … — note that a present
but empty `documents` (or `urls`) list makes the subscript `[0]` raise. -/
def get_av (md : Metadata) : Except RisError (Option String) :=
  match md.documents with
  | some [] => .error .indexError
  | some (dobj :: _) =>
    match dobj.url with
    | some u => .ok (some u)
    | none =>
      match md.urls with
      | some [] => .error .indexError
      | some (uobj :: _) => .ok uobj.value
      | none => .ok none
  | none =>
    match md.urls with
    | some [] => .error .indexError
    | some (uobj :: _) => .ok uobj.value
    | none => .ok none

/-- The collaboration block of `get_ris` (source lines 161–170): sort the
collaboration names, join them, pluralize `Collaboration` when more than
one, and either extend the last selected author (fewer than 10 total
authors) or append a synthetic `et al.` author.  The caller guarantees
`selected` is non-empty (source line 158), so the `[-1]` subscript is
modelled with `getLastD`. -/
def mk_authors (collaborations : Option (List String)) (nof_authors_total : Nat)
    (selected : List String) : Except RisError (List String) :=
  match collaborations with
  | none => .ok selected
  | some colVals =>
    match join_with_and (pySorted colVals) with
    | .error er => .error er
    | .ok joined =>
      let collab_str :=
        joined ++ " Collaboration" ++ (if 1 < (pySorted colVals).length then "s" else "")
      if nof_authors_total < 10 then
        .ok (selected.dropLast ++ [selected.getLastD "" ++ " (for the " ++ collab_str ++ ")"])
      else
        .ok (selected ++ ["et al. (" ++ collab_str ++ ")"])

/-- A value of the `ris` ordered dictionary: a scalar string or (for the
author field) a list of strings. -/
inductive FieldVal where
  | str (s : String)
  | list (l : List String)
deriving DecidableEq, Repr

/-- The contents of the `ris` `OrderedDict` in insertion order (source
lines 134–153 and 170): the ten base fields, then the conditional
`sp`/`ep`/`av` fields, then `au` last. -/
def mk_fields (ty : String) (pubinfo : PubInfo) (title doi record_url : String)
    (av : Option String) (au : List String) : List (String × FieldVal) :=
  [("ty", .str ty),
   ("py", .str (toString (pubinfo.year.getD 0))),
   ("jo", .str pubinfo.journal_title),
   ("vl", .str pubinfo.journal_volume),
   ("t1", .str title),
   ("do", .str ("https://dx.doi.org/" ++ doi)),
   ("db", .str "WoS"),
   ("dp", .str "WoS"),
   ("la", .str "English"),
   ("ur", .str record_url)]
  ++ (match pubinfo.page_start with | some v => [("sp", FieldVal.str v)] | none => [])
  ++ (match pubinfo.page_end with | some v => [("ep", FieldVal.str v)] | none => [])
  ++ (match av with | some v => [("av", FieldVal.str v)] | none => [])
  ++ [("au", .list au)]

/-- The serialization loop of `get_ris` (source lines 172–180): iterate the
ordered dictionary, upper-case each key, emit `'<KEY>  - <value>'`, one
line per element for list values. -/
def serialize : List (String × FieldVal) → List String
  | [] => []
  | (k, FieldVal.str v) :: rest => (pyUpper k ++ "  - " ++ v) :: serialize rest
  | (k, FieldVal.list l) :: rest =>
    l.map (fun e => pyUpper k ++ "  - " ++ e) ++ serialize rest

/-- Shape helper for stating the serialization invariant: the output lines
contributed by one conditional (`sp`/`ep`/`av`) field. -/
def optLine (tag : String) : Option String → List String
  | none => []
  | some v => [tag ++ "  - " ++ v]

/-- `get_ris` (source lines 112–180): the record transformer.  Returns the
list of RIS lines: `[]` for a filtered record (no DOI key, excluded DOI, or
empty author selection), `.error` for each exception the Python code can
raise. -/
def get_ris (e : JsonEntry) (name : String) (keep_affiliation : Bool)
    (dois_to_exclude : List String) : Except RisError (List String) :=
  match e.metadata.dois with
  | none => .ok []
  | some [] => .error .indexError
  | some (doi :: _) =>
    if doi ∈ dois_to_exclude then .ok []
    else
      match findYear e.metadata.publication_info with
      | none => .error (.noYear e.metadata)
      | some pubinfo =>
        match e.metadata.document_type with
        | [] => .error .indexError
        | doctype :: _ =>
          match get_doctype doctype with
          | .error er => .error er
          | .ok ty =>
            match e.metadata.titles with
            | [] => .error .indexError
            | title :: _ =>
              match get_av e.metadata with
              | .error er => .error er
              | .ok av =>
                match select e.metadata.authors name keep_affiliation with
                | .error er => .error er
                | .ok selected =>
                  if selected = [] then .ok []
                  else
                    match mk_authors e.metadata.collaborations
                        e.metadata.authors.length selected with
                    | .error er => .error er
                    | .ok au =>
                      .ok (serialize (mk_fields ty pubinfo title doi
                        ("https://inspirehep.net/record/" ++ e.id) av au))

/-- The loop body of `exclude_dois_from` (source lines 189–196) applied to
one line of the exclusion file: `none` for a line that is not a `DO ` line,
`.error` for a malformed `DO ` line, and otherwise the extracted DOI after
the normalization `replace('https', 'http').replace('http://dx.doi.org/', '')`. -/
def parse_do_line (line : List Char) : Option (Except RisError (List Char)) :=
  let line_stripped := pyStrip line
  if ("DO ".data).isPrefixOf line_stripped then
    let line_split := splitOnSub (" - ".data) line_stripped
    if line_split.length ≠ 2 then some (.error .notARisFile)
    else
      some (.ok (replAll ("http://dx.doi.org/".data) []
        (replAll ("https".data) ("http".data) (pyStrip (line_split.getD 1 [])))))
  else none

/-- `exclude_dois_from` (source lines 182–198) on the lines of the
exclusion file: collect the normalized DOI of every `DO ` line, in file
order, aborting at the first malformed `DO ` line. -/
def exclude_dois_from : List (List Char) → Except RisError (List (List Char))
  | [] => .ok []
  | line :: rest =>
    match parse_do_line line with
    | none => exclude_dois_from rest
    | some (.error er) => .error er
    | some (.ok doi) =>
      match exclude_dois_from rest with
      | .error er => .error er
      | .ok dois => .ok (doi :: dois)

/-! ### The paginated fetch loop (source lines 268–296)

The `while url:` loop issues one `requests.get(url)` per iteration.  We
model the server as a finite script of responses, consumed one response
per iteration, and record the URL of every request issued and the total
seconds slept. -/

/-- One HTTP response of the mock server. -/
inductive Resp where
  /-- status 429: the loop sleeps 6 seconds and retries the same URL. -/
  | tooMany
  /-- any other non-200 status: the loop raises `RuntimeError`. -/
  | badStatus (code : Nat)
  /-- status 200 with a page of hits and the optional `links.next` URL. -/
  | page (entries : List JsonEntry) (next : Option String)
deriving DecidableEq, Repr

/-- Outcome of the fetch loop. -/
inductive FetchOutcome where
  /-- the loop left `while url:` normally; carries the accumulated
  `ris_data` blocks. -/
  | finished (ris_data : List String)
  /-- `RuntimeError` for a non-200, non-429 status (source line 277). -/
  | fatal (code : Nat) (url : String)
  /-- an exception propagated out of `get_ris`. -/
  | risFailure (er : RisError)
  /-- the response script ran out while the loop still wanted to issue a
  request (the unbounded retry would block on a real, silent server). -/
  | starved
deriving DecidableEq, Repr

/-- The per-page body (source lines 290–293): run `get_ris` on every entry
and keep each non-empty result joined with newlines. -/
def process_entries (name : String) (keep : Bool) (excl : List String) :
    List JsonEntry → Except RisError (List String)
  | [] => .ok []
  | e :: es =>
    match get_ris e name keep excl with
    | .error er => .error er
    | .ok lines =>
      match process_entries name keep excl es with
      | .error er => .error er
      | .ok rest => .ok (if lines = [] then rest else pyJoin "\n" lines :: rest)

/-- The fetch loop (source lines 268–296).  Returns the list of requested
URLs in order, the total seconds slept, and the outcome. -/
def fetchAll (name : String) (keep : Bool) (excl : List String) :
    List Resp → Option String → List String → List String × Nat × FetchOutcome
  | _, none, acc => ([], 0, .finished acc)
  | [], some _, _ => ([], 0, .starved)
  | r :: rest, some u, acc =>
    match r with
    | .tooMany =>
      let (us, slept, out) := fetchAll name keep excl rest (some u) acc
      (u :: us, slept + 6, out)
    | .badStatus code => ([u], 0, .fatal code u)
    | .page entries next =>
      match process_entries name keep excl entries with
      | .error er => ([u], 0, .risFailure er)
      | .ok blocks =>
        let (us, slept, out) := fetchAll name keep excl rest next (acc ++ blocks)
        (u :: us, slept, out)

deriving instance DecidableEq for Except

/-! ### Lemmas about the string primitives -/

theorem isPrefixOf_append_self : ∀ (p t : List Char), p.isPrefixOf (p ++ t) = true
  | [], t => by simp [List.isPrefixOf]
  | a :: as, t => by simp [List.isPrefixOf, isPrefixOf_append_self as t]

theorem isPrefixOf_cons_of_ne {a b : Char} (as bs : List Char) (h : a ≠ b) :
    (a :: as).isPrefixOf (b :: bs) = false := by
  simp [List.isPrefixOf, h]

theorem replGo_skip (pat rep : List Char) :
    ∀ (s : List Char) (k : Nat), replGo pat rep s k = replGo pat rep (s.drop k) 0
  | [], 0 => rfl
  | [], _ + 1 => rfl
  | _ :: _, 0 => rfl
  | _ :: cs, k + 1 => by
    simpa [replGo] using replGo_skip pat rep cs k

theorem replAll_cons_pos {pat : List Char} (rep : List Char) {c : Char} {cs : List Char}
    (hne : pat ≠ []) (hp : pat.isPrefixOf (c :: cs) = true) :
    replAll pat rep (c :: cs) = rep ++ replAll pat rep (cs.drop (pat.length - 1)) := by
  simp only [replAll, replGo, if_pos (And.intro hne hp)]
  rw [replGo_skip]

theorem replAll_cons_neg {pat : List Char} (rep : List Char) {c : Char} {cs : List Char}
    (hp : pat.isPrefixOf (c :: cs) = false) :
    replAll pat rep (c :: cs) = c :: replAll pat rep cs := by
  have : ¬ (pat ≠ [] ∧ pat.isPrefixOf (c :: cs) = true) := by
    rintro ⟨-, h⟩; rw [hp] at h; exact Bool.false_ne_true h
  simp only [replAll, replGo, if_neg this]

theorem containsSub_cons_false {pat : List Char} {c : Char} {cs : List Char}
    (h : containsSub pat (c :: cs) = false) :
    pat.isPrefixOf (c :: cs) = false ∧ containsSub pat cs = false := by
  simpa [containsSub] using h

theorem containsSub_eq_false_of_not_mem {p : Char} (pt : List Char) :
    ∀ {s : List Char}, p ∉ s → containsSub (p :: pt) s = false
  | [], _ => rfl
  | c :: cs, h => by
    have hpc : p ≠ c := fun hdx => h (hdx ▸ List.mem_cons_self c cs)
    have ht : containsSub (p :: pt) cs = false :=
      containsSub_eq_false_of_not_mem pt fun hm => h (List.mem_cons_of_mem c hm)
    simp [containsSub, isPrefixOf_cons_of_ne _ _ hpc, ht]

theorem replAll_of_not_contains {pat : List Char} (rep : List Char) :
    ∀ {s : List Char}, containsSub pat s = false → replAll pat rep s = s
  | [], _ => rfl
  | c :: cs, h => by
    obtain ⟨h1, h2⟩ := containsSub_cons_false h
    rw [replAll_cons_neg rep h1, replAll_of_not_contains rep h2]

theorem replAll_append_self {pat : List Char} (rep t : List Char) (hne : pat ≠ []) :
    replAll pat rep (pat ++ t) = rep ++ replAll pat rep t := by
  obtain ⟨a, as, rfl⟩ : ∃ a as, pat = a :: as := by
    cases pat with
    | nil => exact absurd rfl hne
    | cons a as => exact ⟨a, as, rfl⟩
  have hp : (a :: as).isPrefixOf ((a :: as) ++ t) = true := isPrefixOf_append_self _ _
  rw [show ((a :: as) ++ t) = a :: (as ++ t) from rfl] at hp ⊢
  rw [replAll_cons_pos rep hne hp]
  simp [List.drop_left]

theorem replAll_append_of_head_not_mem {p : Char} (pt rep : List Char) :
    ∀ {a : List Char} (b : List Char), p ∉ a →
      replAll (p :: pt) rep (a ++ b) = a ++ replAll (p :: pt) rep b
  | [], _, _ => by simp
  | c :: a', b, h => by
    have hpc : p ≠ c := fun hdx => h (hdx ▸ List.mem_cons_self c a')
    have ht : p ∉ a' := fun hm => h (List.mem_cons_of_mem c hm)
    rw [show ((c :: a') ++ b) = c :: (a' ++ b) from rfl,
      replAll_cons_neg rep (isPrefixOf_cons_of_ne _ _ hpc),
      replAll_append_of_head_not_mem pt rep b ht]
    rfl

theorem splitGo_skip (sep : List Char) :
    ∀ (s : List Char) (k : Nat), splitGo sep s k = splitGo sep (s.drop k) 0
  | [], 0 => rfl
  | [], _ + 1 => rfl
  | _ :: _, 0 => rfl
  | _ :: cs, k + 1 => by
    simpa [splitGo] using splitGo_skip sep cs k

theorem splitOnSub_cons_pos {sep : List Char} {c : Char} {cs : List Char}
    (hne : sep ≠ []) (hp : sep.isPrefixOf (c :: cs) = true) :
    splitOnSub sep (c :: cs) = [] :: splitOnSub sep (cs.drop (sep.length - 1)) := by
  simp only [splitOnSub, splitGo, if_pos (And.intro hne hp)]
  rw [splitGo_skip]

theorem splitOnSub_ne_nil (sep : List Char) : ∀ (s : List Char), splitOnSub sep s ≠ []
  | [] => by simp [splitOnSub, splitGo]
  | c :: cs => by
    by_cases h : sep ≠ [] ∧ sep.isPrefixOf (c :: cs) = true
    · simp only [splitOnSub, splitGo, if_pos h]
      exact List.cons_ne_nil _ _
    · simp only [splitOnSub, splitGo, if_neg h]
      rcases hcs : splitGo sep cs 0 with - | ⟨hd, tl⟩
      · exact List.cons_ne_nil _ _
      · exact List.cons_ne_nil _ _

theorem splitOnSub_cons_neg {sep : List Char} {c : Char} {cs h : List Char}
    {t : List (List Char)} (hp : sep.isPrefixOf (c :: cs) = false)
    (hcs : splitOnSub sep cs = h :: t) :
    splitOnSub sep (c :: cs) = (c :: h) :: t := by
  have hno : ¬ (sep ≠ [] ∧ sep.isPrefixOf (c :: cs) = true) := by
    rintro ⟨-, hx⟩; rw [hp] at hx; exact Bool.false_ne_true hx
  simp only [splitOnSub, splitGo, if_neg hno]
  rw [show splitGo sep cs 0 = h :: t from hcs]

theorem splitOnSub_of_not_contains {sep : List Char} :
    ∀ {s : List Char}, containsSub sep s = false → splitOnSub sep s = [s]
  | [], _ => rfl
  | c :: cs, h => by
    obtain ⟨h1, h2⟩ := containsSub_cons_false h
    exact splitOnSub_cons_neg h1 (splitOnSub_of_not_contains h2)

theorem splitOnSub_sep_append {sep : List Char} (t : List Char) (hne : sep ≠ []) :
    splitOnSub sep (sep ++ t) = [] :: splitOnSub sep t := by
  obtain ⟨a, as, rfl⟩ : ∃ a as, sep = a :: as := by
    cases sep with
    | nil => exact absurd rfl hne
    | cons a as => exact ⟨a, as, rfl⟩
  have hp : (a :: as).isPrefixOf ((a :: as) ++ t) = true := isPrefixOf_append_self _ _
  rw [show ((a :: as) ++ t) = a :: (as ++ t) from rfl] at hp ⊢
  rw [splitOnSub_cons_pos hne hp]
  simp [List.drop_left]

theorem containsSub_head_mem {p : Char} {pt : List Char} :
    ∀ {s : List Char}, containsSub (p :: pt) s = true → p ∈ s
  | [], h => by
    have h' : (false : Bool) = true := h
    exact Bool.noConfusion h'
  | c :: cs, h => by
    by_cases hpc : p = c
    · exact hpc ▸ List.mem_cons_self c cs
    · have h1 : (p :: pt).isPrefixOf (c :: cs) = false := isPrefixOf_cons_of_ne _ _ hpc
      have h2 : containsSub (p :: pt) cs = true := by
        have hx := h
        simp only [containsSub, h1, Bool.false_or] at hx
        exact hx
      exact List.mem_cons_of_mem c (containsSub_head_mem h2)

theorem dropTrailing_append {a : List Char} {e : Char} (he : e.isWhitespace = false) :
    ((a ++ [e]).reverse.dropWhile Char.isWhitespace).reverse = a ++ [e] := by
  have hrev : (a ++ [e]).reverse = e :: a.reverse := by simp
  rw [hrev, List.dropWhile_cons, if_neg (by simp [he])]
  simp

theorem pyStrip_eq_self {c : Char} {t : List Char} (hc : c.isWhitespace = false)
    (hlast : ∀ x, (c :: t).getLast? = some x → x.isWhitespace = false) :
    pyStrip (c :: t) = c :: t := by
  unfold pyStrip
  rw [List.dropWhile_cons, if_neg (by simp [hc])]
  have hne : (c :: t) ≠ [] := List.cons_ne_nil _ _
  have hsplit : (c :: t).dropLast ++ [(c :: t).getLast hne] = c :: t :=
    List.dropLast_append_getLast hne
  have hws : ((c :: t).getLast hne).isWhitespace = false :=
    hlast _ (List.getLast?_eq_getLast _ hne)
  calc (((c :: t).reverse.dropWhile Char.isWhitespace)).reverse
      = ((((c :: t).dropLast ++ [(c :: t).getLast hne]).reverse.dropWhile
          Char.isWhitespace)).reverse := by rw [hsplit]
    _ = (c :: t).dropLast ++ [(c :: t).getLast hne] := dropTrailing_append hws
    _ = c :: t := hsplit

theorem getLast?_append_cons (a : List Char) (c0 : Char) (d' : List Char) :
    (a ++ (c0 :: d')).getLast? = (c0 :: d').getLast? := by
  rw [List.getLast?_append, List.getLast?_eq_getLast (c0 :: d') (List.cons_ne_nil _ _)]
  rfl

/-- Splitting the line `DO  - <X>` on `' - '` yields exactly
`['DO ', X]` when `X` itself contains no `' - '`. -/
theorem splitOnSub_do_line (X : List Char) (h : containsSub (" - ".data) X = false) :
    splitOnSub (" - ".data) ("DO  - ".data ++ X) = ["DO ".data, X] := by
  have hX : splitOnSub (" - ".data) X = [X] := splitOnSub_of_not_contains h
  have h3 : splitOnSub (" - ".data) (" - ".data ++ X) = [] :: [X] := by
    rw [splitOnSub_sep_append X (by decide), hX]
  have h3' : splitOnSub (" - ".data) (' ' :: '-' :: ' ' :: X) = [] :: [X] := h3
  have h2 : splitOnSub (" - ".data) (' ' :: ' ' :: '-' :: ' ' :: X)
      = [' '] :: [X] := splitOnSub_cons_neg rfl h3'
  have h1 : splitOnSub (" - ".data) ('O' :: ' ' :: ' ' :: '-' :: ' ' :: X)
      = ['O', ' '] :: [X] := splitOnSub_cons_neg rfl h2
  have h0 : splitOnSub (" - ".data) ('D' :: 'O' :: ' ' :: ' ' :: '-' :: ' ' :: X)
      = ['D', 'O', ' '] :: [X] := splitOnSub_cons_neg rfl h1
  exact h0

/-- The loader's normalization
`replace('https', 'http').replace('http://dx.doi.org/', '')` recovers `d`
from `https://dx.doi.org/<d>` whenever `d` contains neither `https` nor
`http://dx.doi.org/` as a substring. -/
theorem normalize_resolver (d : List Char)
    (h2 : containsSub ("https".data) d = false)
    (h3 : containsSub ("http://dx.doi.org/".data) d = false) :
    replAll ("http://dx.doi.org/".data) []
      (replAll ("https".data) ("http".data) ("https://dx.doi.org/".data ++ d)) = d := by
  have e1 : replAll ("https".data) ("http".data) ("https://dx.doi.org/".data ++ d)
      = "http://dx.doi.org/".data ++ d := by
    have hBC : "https://dx.doi.org/".data ++ d
        = "https".data ++ ("://dx.doi.org/".data ++ d) := by
      rw [show "https://dx.doi.org/".data
          = "https".data ++ "://dx.doi.org/".data by decide, List.append_assoc]
    rw [hBC, replAll_append_self _ _ (by decide),
      replAll_append_of_head_not_mem _ _ _ (by decide),
      replAll_of_not_contains _ h2,
      show "http://dx.doi.org/".data = "http".data ++ "://dx.doi.org/".data by decide,
      List.append_assoc]
  rw [e1, replAll_append_self _ _ (by decide), replAll_of_not_contains _ h3,
    List.nil_append]

/-- Applying the loop body of `exclude_dois_from` to the exact `DO ` line
that `get_ris` writes for DOI `d` recovers `d`, provided `d` has no
whitespace and no `https` / `http://dx.doi.org/` substring. -/
theorem parse_do_line_roundtrip (d : List Char)
    (h1 : ∀ c ∈ d, c.isWhitespace = false)
    (h2 : containsSub ("https".data) d = false)
    (h3 : containsSub ("http://dx.doi.org/".data) d = false) :
    parse_do_line ("DO  - https://dx.doi.org/".data ++ d) = some (.ok d) := by
  rcases d with - | ⟨c0, d'⟩
  · rfl
  · have hlast : ∀ x, ("DO  - https://dx.doi.org/".data ++ (c0 :: d')).getLast? = some x →
        x.isWhitespace = false := by
      intro x hx
      rw [getLast?_append_cons] at hx
      exact h1 x (List.mem_of_getLast?_eq_some hx)
    have hstrip : pyStrip ("DO  - https://dx.doi.org/".data ++ (c0 :: d'))
        = "DO  - https://dx.doi.org/".data ++ (c0 :: d') :=
      pyStrip_eq_self (by decide) hlast
    have hspace : ' ' ∉ "https://dx.doi.org/".data ++ (c0 :: d') := by
      intro hmem
      rcases List.mem_append.mp hmem with hL | hR
      · exact absurd hL (by decide)
      · have := h1 ' ' hR
        exact absurd this (by decide)
    have hnosep : containsSub (" - ".data) ("https://dx.doi.org/".data ++ (c0 :: d'))
        = false := containsSub_eq_false_of_not_mem _ hspace
    have hsplit : splitOnSub (" - ".data) ("DO  - https://dx.doi.org/".data ++ (c0 :: d'))
        = ["DO ".data, "https://dx.doi.org/".data ++ (c0 :: d')] := by
      rw [show "DO  - https://dx.doi.org/".data ++ (c0 :: d')
          = "DO  - ".data ++ ("https://dx.doi.org/".data ++ (c0 :: d')) by
        rw [show "DO  - https://dx.doi.org/".data
            = "DO  - ".data ++ "https://dx.doi.org/".data by decide, List.append_assoc]]
      exact splitOnSub_do_line _ hnosep
    have hlast2 : ∀ x, ("https://dx.doi.org/".data ++ (c0 :: d')).getLast? = some x →
        x.isWhitespace = false := by
      intro x hx
      rw [getLast?_append_cons] at hx
      exact h1 x (List.mem_of_getLast?_eq_some hx)
    have hstrip2 : pyStrip ("https://dx.doi.org/".data ++ (c0 :: d'))
        = "https://dx.doi.org/".data ++ (c0 :: d') :=
      pyStrip_eq_self (by decide) hlast2
    unfold parse_do_line
    rw [hstrip]
    rw [if_pos (by rfl)]
    rw [hsplit]
    simp only [List.length_cons, List.length_nil, List.getD]
    rw [if_neg (by decide)]
    rw [show (["DO ".data, "https://dx.doi.org/".data ++ (c0 :: d')].get? 1).getD []
        = "https://dx.doi.org/".data ++ (c0 :: d') from rfl]
    rw [hstrip2]
    rw [show "https://dx.doi.org/".data ++ (c0 :: d')
        = "https://dx.doi.org/".data ++ (c0 :: d') from rfl]
    rw [normalize_resolver _ h2 h3]

/-! ### Small program lemmas -/

theorem insertSorted_length (x : String) :
    ∀ l : List String, (insertSorted x l).length = l.length + 1
  | [] => rfl
  | y :: ys => by
    cases hb : strLeB x.data y.data <;>
      simp [insertSorted, hb, insertSorted_length x ys]

theorem pySorted_length : ∀ l : List String, (pySorted l).length = l.length
  | [] => rfl
  | x :: xs => by
    simp [pySorted, List.foldr_cons, insertSorted_length]
    simpa [pySorted] using pySorted_length xs

theorem pySorted_ne_nil {l : List String} (h : l ≠ []) : pySorted l ≠ [] := by
  intro hx
  apply h
  have h0 : l.length = 0 := by rw [← pySorted_length l, hx]; rfl
  exact List.length_eq_zero.mp h0

theorem join_with_and_of_ne_nil {arr : List String} (h : arr ≠ []) :
    ∃ s, join_with_and arr = .ok s := by
  match arr with
  | [] => exact absurd rfl h
  | [a] => exact ⟨a, rfl⟩
  | [a, b] => exact ⟨_, rfl⟩
  | a :: b :: c :: rest => exact ⟨_, rfl⟩

theorem findYear_eq_none : ∀ {l : List PubInfo}, (∀ p ∈ l, p.year = none) → findYear l = none
  | [], _ => rfl
  | p :: ps, h => by
    have hp : p.year = none := h p (List.mem_cons_self _ _)
    have ht := findYear_eq_none fun q hq => h q (List.mem_cons_of_mem _ hq)
    simp [findYear, hp, ht]

theorem serialize_append :
    ∀ l1 l2 : List (String × FieldVal), serialize (l1 ++ l2) = serialize l1 ++ serialize l2
  | [], _ => rfl
  | (k, FieldVal.str v) :: rest, l2 => by
    simp [serialize, serialize_append rest l2]
  | (k, FieldVal.list l) :: rest, l2 => by
    simp [serialize, serialize_append rest l2]

/-! ### Claim theorems -/

/-- Claim C1.  The claim (and §4.2 step 4 / §9 of the spec) say the
force-append branch should append the target's canonical name, yielding a
non-empty selection.  The source instead executes
`selected_authors.append(author)` with `author` undefined, so Python
raises `NameError`; evaluated here at a concrete input where neither the
target nor its alias holds the home affiliation and
`keep_affiliation = true`. -/
theorem select_force_append_raises_name_error :
    select [{ full_name := "Doe, John", affiliations := some ["CERN"] }]
      "Ehataht, Karl" true = .error .nameError := rfl

/-- Claim C2 counterexample: on three names the code joins with
`', '.join(arr[:-1]) + ' and ' + arr[-1]`, producing `A, B and C` —
there is no Oxford comma before the final conjunction, contradicting the
claimed `A, B, and C`. -/
theorem join_with_and_three_no_oxford_comma :
    join_with_and ["A", "B", "C"] = .ok "A, B and C" ∧
      join_with_and ["A", "B", "C"] ≠ .ok "A, B, and C" := by
  exact ⟨rfl, by decide⟩

/-- Claim C2 (amended): `join_with_and` renders one name as itself, two
names as `A and B`, and three or more names with `', '` between all but
the last pair and a plain `' and '` (no comma) before the final name:
`A, B and C`, `A, B, C and D`. -/
theorem join_with_and_forms (a b c d : String) :
    join_with_and [a] = .ok a ∧
    join_with_and [a, b] = .ok (a ++ " and " ++ b) ∧
    join_with_and [a, b, c] = .ok (a ++ ", " ++ b ++ " and " ++ c) ∧
    join_with_and [a, b, c, d] = .ok (a ++ ", " ++ b ++ ", " ++ c ++ " and " ++ d) := by
  refine ⟨rfl, rfl, rfl, ?_⟩
  show Except.ok ((a ++ ", " ++ (b ++ ", " ++ c)) ++ " and " ++ d) = _
  simp [String.append_assoc]

/-- Claim C3 counterexample: the DOI string `https` does not round-trip —
the loader's `replace('https', 'http')` also rewrites the occurrence
inside the DOI itself, returning `http` instead of `https`. -/
theorem do_line_roundtrip_fails_on_https :
    exclude_dois_from ["DO  - https://dx.doi.org/https".data] = .ok ["http".data] ∧
      exclude_dois_from ["DO  - https://dx.doi.org/https".data] ≠ .ok ["https".data] := by
  refine ⟨rfl, fun h => ?_⟩
  have h' : ["http".data] = ["https".data] := by
    have h0 : (Except.ok ["http".data] : Except RisError (List (List Char)))
        = .ok ["https".data] := by
      rw [← h]; rfl
    injection h0
  exact absurd h' (by decide)

/-- Claim C3 (amended): the export writes the `do` field as the
DOI-resolver URL (first conjunct: the serialized `DO` line for DOI `d` is
exactly `DO  - https://dx.doi.org/<d>`), and re-parsing that line with the
Exclusion Set Loader recovers `d` — provided `d` contains no whitespace
and neither `https` nor `http://dx.doi.org/` as a substring (real DOIs
satisfy this; the counterexample shows it cannot be dropped). -/
theorem do_line_roundtrip (d : List Char)
    (h1 : ∀ c ∈ d, c.isWhitespace = false)
    (h2 : containsSub ("https".data) d = false)
    (h3 : containsSub ("http://dx.doi.org/".data) d = false) :
    serialize [("do", FieldVal.str ("https://dx.doi.org/" ++ String.mk d))]
        = ["DO  - https://dx.doi.org/" ++ String.mk d] ∧
    exclude_dois_from [("DO  - https://dx.doi.org/" ++ String.mk d).data] = .ok [d] := by
  constructor
  · rfl
  · show exclude_dois_from ["DO  - https://dx.doi.org/".data ++ d] = .ok [d]
    simp only [exclude_dois_from]
    rw [parse_do_line_roundtrip d h1 h2 h3]

/-- Witness for the amended Claim C3 at the DOI `10.1007/JHEP07(2021)027`. -/
theorem do_line_roundtrip_witness :
    serialize [("do", FieldVal.str
        ("https://dx.doi.org/" ++ String.mk "10.1007/JHEP07(2021)027".data))]
        = ["DO  - https://dx.doi.org/" ++ String.mk "10.1007/JHEP07(2021)027".data] ∧
    exclude_dois_from
        [("DO  - https://dx.doi.org/" ++ String.mk "10.1007/JHEP07(2021)027".data).data]
        = .ok ["10.1007/JHEP07(2021)027".data] :=
  do_line_roundtrip "10.1007/JHEP07(2021)027".data (by decide) (by decide) (by decide)

/-- Claim C7: whenever the selector succeeds — the target name, or the
alias `ALIASES[name]` when `name` is aliased, occurs among the
affiliation-qualified candidates — the output is exactly the candidate
list with every member alias-resolved, sorted (Python `sorted`, i.e.
code-point lexicographic on the resolved names). -/
theorem select_success (authors : List Author) (name : String) (keep : Bool)
    (h : name ∈ affil_candidates authors ∨
      ∃ n', ALIASES.lookup name = some n' ∧ n' ∈ affil_candidates authors) :
    select authors name keep = .ok (pySorted ((affil_candidates authors).map aliasOf)) := by
  unfold select
  by_cases hm : name ∈ affil_candidates authors
  · simp [hm]
  · rcases h with h | ⟨n', hn', hmem⟩
    · exact absurd h hm
    · simp [hm, hn', hmem]

/-- Witness for Claim C7: the target's canonical name `Ehataht, Karl`
resolves through `ALIASES` to the aliased form on the record. -/
theorem select_success_witness :
    select [{ full_name := "Ehatäht, Karl", affiliations := some ["NICPB, Tallinn"] }]
      "Ehataht, Karl" false
      = .ok (pySorted ((affil_candidates
          [{ full_name := "Ehatäht, Karl", affiliations := some ["NICPB, Tallinn"] }]).map
          aliasOf)) :=
  select_success _ _ _ (Or.inr ⟨"Ehatäht, Karl", by decide, by decide⟩)

/-- Claim C6: a record with a DOI that survives the exclusion check but
whose `publication_info` has no entry carrying a year makes `get_ris`
raise `RuntimeError`, with the offending metadata surfaced — the record
is not silently dropped. -/
theorem get_ris_no_year_raises (e : JsonEntry) (name : String) (keep : Bool)
    (excl : List String) (doi : String) (rest : List String)
    (h1 : e.metadata.dois = some (doi :: rest))
    (h2 : doi ∉ excl)
    (h3 : ∀ p ∈ e.metadata.publication_info, p.year = none) :
    get_ris e name keep excl = .error (.noYear e.metadata) := by
  have hy : findYear e.metadata.publication_info = none := findYear_eq_none h3
  unfold get_ris
  simp only [h1, hy, h2]
  simp [h2]

/-- Witness for Claim C6 at a concrete year-less record. -/
theorem get_ris_no_year_raises_witness :
    get_ris ⟨"77", ⟨some ["10.5/x"],
        [⟨none, "J", "1", none, none⟩], ["T"], ["article"], [], none, none, none⟩⟩
      "N" false []
      = .error (.noYear ⟨some ["10.5/x"],
          [⟨none, "J", "1", none, none⟩], ["T"], ["article"], [], none, none, none⟩) :=
  get_ris_no_year_raises _ _ _ _ "10.5/x" [] rfl (by decide) (by decide)

/-- Claim C5 counterexample: a record whose author selection is empty
(`keep_affiliation = false`, no affiliation-matching author) but which has
no year-bearing `publication_info` entry makes the Transformer raise
instead of returning the claimed empty, exception-free result. -/
theorem get_ris_empty_selection_can_raise :
    select [{ full_name := "Doe, John", affiliations := some ["CERN"] }] "Nobody" false
      = .ok [] ∧
    get_ris ⟨"77", ⟨some ["10.5/x"], [],
        ["T"], ["article"], [{ full_name := "Doe, John", affiliations := some ["CERN"] }],
        none, none, none⟩⟩ "Nobody" false []
      ≠ .ok [] :=
  ⟨rfl, by decide⟩

/-- Claim C5 (amended): a record lacking the `dois` key, or whose primary
DOI string occurs verbatim in the exclusion list, yields empty output with
no exception; and a record that additionally passes the year, doctype,
title and link lookups without error and whose author selection is empty
also yields empty output with no exception.  (As the counterexample
shows, the last case needs the record to survive the intermediate
lookups, which run before author selection; and the code compares the
record's DOI to the normalized exclusion entries verbatim, without
normalizing it.) -/
theorem get_ris_filtered_empty (e : JsonEntry) (name : String) (keep : Bool)
    (excl : List String) :
    (e.metadata.dois = none → get_ris e name keep excl = .ok []) ∧
    (∀ doi rest, e.metadata.dois = some (doi :: rest) → doi ∈ excl →
      get_ris e name keep excl = .ok []) ∧
    (∀ doi rest pubinfo dt dts ty t ts av,
      e.metadata.dois = some (doi :: rest) → doi ∉ excl →
      findYear e.metadata.publication_info = some pubinfo →
      e.metadata.document_type = dt :: dts → get_doctype dt = .ok ty →
      e.metadata.titles = t :: ts → get_av e.metadata = .ok av →
      select e.metadata.authors name keep = .ok [] →
      get_ris e name keep excl = .ok []) := by
  refine ⟨fun h0 => ?_, fun doi rest h1 h2 => ?_, ?_⟩
  · unfold get_ris
    simp only [h0]
  · unfold get_ris
    simp only [h1]
    simp [h2]
  · intro doi rest pubinfo dt dts ty t ts av h1 h2 h3 h4 h5 h6 h7 h8
    unfold get_ris
    simp only [h1, h3, h4, h5, h6, h7, h8]
    simp [h2]

/-- Witness for the amended Claim C5: one record per case — missing `dois`
key, excluded DOI, and empty author selection on an otherwise complete
record. -/
theorem get_ris_filtered_empty_witness :
    get_ris ⟨"1", ⟨none, [], [], [], [], none, none, none⟩⟩ "N" false [] = .ok [] ∧
    get_ris ⟨"2", ⟨some ["10.5/x"], [], [], [], [], none, none, none⟩⟩
      "N" false ["10.5/x"] = .ok [] ∧
    get_ris ⟨"3", ⟨some ["10.5/x"], [⟨some 2021, "J", "1", none, none⟩], ["T"], ["article"],
        [{ full_name := "Doe, John", affiliations := some ["CERN"] }],
        none, none, none⟩⟩ "Nobody" false [] = .ok [] :=
  ⟨(get_ris_filtered_empty _ "N" false []).1 rfl,
   (get_ris_filtered_empty _ "N" false ["10.5/x"]).2.1 "10.5/x" [] rfl (by decide),
   (get_ris_filtered_empty _ "Nobody" false []).2.2 "10.5/x" []
     ⟨some 2021, "J", "1", none, none⟩ "article" [] "JOUR" "T" [] none
     rfl (by decide) rfl rfl rfl rfl rfl rfl⟩

/-- Claim C4: on a record that passes all earlier stages, carries a
non-empty collaboration list and has a non-empty author selection, the
collaboration credit is attached as claimed: with fewer than 10 total
(pre-filter) authors the parenthetical `(for the <collab> Collaboration[s])`
is appended to the last selected author's name, otherwise a synthetic
trailing author `et al. (<collab> Collaboration[s])` is appended;
`Collaboration` is pluralized exactly when more than one collaboration is
listed. -/
theorem get_ris_collab (e : JsonEntry) (name : String) (keep : Bool) (excl : List String)
    (doi : String) (rest : List String) (pubinfo : PubInfo) (dt : String) (dts : List String)
    (ty t : String) (ts : List String) (av : Option String) (sel cs : List String)
    (h1 : e.metadata.dois = some (doi :: rest)) (h2 : doi ∉ excl)
    (h3 : findYear e.metadata.publication_info = some pubinfo)
    (h4 : e.metadata.document_type = dt :: dts) (h5 : get_doctype dt = .ok ty)
    (h6 : e.metadata.titles = t :: ts) (h7 : get_av e.metadata = .ok av)
    (h8 : select e.metadata.authors name keep = .ok sel) (h9 : sel ≠ [])
    (h10 : e.metadata.collaborations = some cs) (h11 : cs ≠ []) :
    ∃ j, join_with_and (pySorted cs) = .ok j ∧
      get_ris e name keep excl = .ok (serialize (mk_fields ty pubinfo t doi
        ("https://inspirehep.net/record/" ++ e.id) av
        (if e.metadata.authors.length < 10 then
          sel.dropLast ++ [sel.getLastD "" ++ " (for the " ++
            (j ++ " Collaboration" ++ (if 1 < cs.length then "s" else "")) ++ ")"]
        else
          sel ++ ["et al. (" ++ (j ++ " Collaboration" ++
            (if 1 < cs.length then "s" else "")) ++ ")"]))) := by
  obtain ⟨j, hj⟩ := join_with_and_of_ne_nil (pySorted_ne_nil h11)
  refine ⟨j, hj, ?_⟩
  have hmk : mk_authors e.metadata.collaborations e.metadata.authors.length sel
      = .ok (if e.metadata.authors.length < 10 then
          sel.dropLast ++ [sel.getLastD "" ++ " (for the " ++
            (j ++ " Collaboration" ++ (if 1 < cs.length then "s" else "")) ++ ")"]
        else
          sel ++ ["et al. (" ++ (j ++ " Collaboration" ++
            (if 1 < cs.length then "s" else "")) ++ ")"]) := by
    rw [h10]
    cases hjj : join_with_and (pySorted cs) with
    | error er =>
      rw [hjj] at hj
      exact Except.noConfusion hj
    | ok joined =>
      have hjeq : joined = j := by
        rw [hjj] at hj
        injection hj
      subst hjeq
      simp only [mk_authors, hjj, pySorted_length]
      by_cases hn : e.metadata.authors.length < 10 <;> simp [hn]
  unfold get_ris
  simp only [h1, h3, h4, h5, h6, h7, h8, hmk]
  simp [h2, h9]

/-- Witness for Claim C4: one author below the 10-author threshold and a
single collaboration `CMS` — the last selected author gains
`(for the CMS Collaboration)` (singular). -/
theorem get_ris_collab_witness :
    ∃ j, join_with_and (pySorted ["CMS"]) = .ok j ∧
      get_ris ⟨"1852846", ⟨some ["10.1/x"], [⟨some 2021, "JHEP", "07", none, none⟩], ["T"],
          ["article"],
          [{ full_name := "Ehatäht, Karl", affiliations := some ["NICPB, Tallinn"] }],
          some ["CMS"], none, none⟩⟩ "Ehatäht, Karl" false []
        = .ok (serialize (mk_fields "JOUR" ⟨some 2021, "JHEP", "07", none, none⟩ "T" "10.1/x"
          ("https://inspirehep.net/record/" ++ "1852846") none
          ["Ehatäht, Karl" ++ " (for the " ++ (j ++ " Collaboration" ++ "") ++ ")"])) :=
  get_ris_collab _ "Ehatäht, Karl" false [] "10.1/x" []
    ⟨some 2021, "JHEP", "07", none, none⟩ "article" [] "JOUR" "T" [] none
    ["Ehatäht, Karl"] ["CMS"]
    rfl (by decide) rfl rfl rfl rfl rfl rfl (by decide) rfl (by decide)

/-- Claim C10: a record whose `collaborations` key is present but holds an
empty list drives `join_with_and` into its `assert(arr)` with an empty
argument, so the Transformer raises `AssertionError` instead of dropping
the record or emitting output. -/
theorem get_ris_empty_collab_asserts (e : JsonEntry) (name : String) (keep : Bool)
    (excl : List String) (doi : String) (rest : List String) (pubinfo : PubInfo)
    (dt : String) (dts : List String) (ty t : String) (ts : List String)
    (av : Option String) (sel : List String)
    (h1 : e.metadata.dois = some (doi :: rest)) (h2 : doi ∉ excl)
    (h3 : findYear e.metadata.publication_info = some pubinfo)
    (h4 : e.metadata.document_type = dt :: dts) (h5 : get_doctype dt = .ok ty)
    (h6 : e.metadata.titles = t :: ts) (h7 : get_av e.metadata = .ok av)
    (h8 : select e.metadata.authors name keep = .ok sel) (h9 : sel ≠ [])
    (h10 : e.metadata.collaborations = some []) :
    get_ris e name keep excl = .error .assertionError := by
  have hmk : mk_authors e.metadata.collaborations e.metadata.authors.length sel
      = .error .assertionError := by
    rw [h10]
    rfl
  unfold get_ris
  simp only [h1, h3, h4, h5, h6, h7, h8, hmk]
  simp [h2, h9]

/-- Witness for Claim C10 at a concrete record with `collaborations: []`. -/
theorem get_ris_empty_collab_asserts_witness :
    get_ris ⟨"1852846", ⟨some ["10.1/x"], [⟨some 2021, "JHEP", "07", none, none⟩], ["T"],
        ["article"],
        [{ full_name := "Ehatäht, Karl", affiliations := some ["NICPB, Tallinn"] }],
        some [], none, none⟩⟩ "Ehatäht, Karl" false []
      = .error .assertionError :=
  get_ris_empty_collab_asserts _ "Ehatäht, Karl" false [] "10.1/x" []
    ⟨some 2021, "JHEP", "07", none, none⟩ "article" [] "JOUR" "T" [] none
    ["Ehatäht, Karl"]
    rfl (by decide) rfl rfl rfl rfl rfl rfl (by decide) rfl

/-- The serialized form of a complete `ris` dictionary: the ten base
lines, the conditional `SP`/`EP`/`AV` lines, then one `AU` line per final
author. -/
theorem serialize_mk_fields (ty : String) (y : Option Nat) (jo vl : String)
    (sp ep : Option String) (t doi url : String) (av : Option String) (au : List String) :
    serialize (mk_fields ty ⟨y, jo, vl, sp, ep⟩ t doi url av au)
      = ["TY  - " ++ ty, "PY  - " ++ toString (y.getD 0), "JO  - " ++ jo,
         "VL  - " ++ vl, "T1  - " ++ t, "DO  - " ++ ("https://dx.doi.org/" ++ doi),
         "DB  - WoS", "DP  - WoS", "LA  - English", "UR  - " ++ url]
        ++ optLine "SP" sp ++ optLine "EP" ep ++ optLine "AV" av
        ++ au.map (fun a => "AU  - " ++ a) := by
  have hau : serialize [("au", FieldVal.list au)]
      = au.map (fun e => pyUpper "au" ++ "  - " ++ e) := by
    show au.map (fun e => pyUpper "au" ++ "  - " ++ e) ++ serialize [] = _
    rw [show serialize [] = [] from rfl, List.append_nil]
  unfold mk_fields
  rw [serialize_append, serialize_append, serialize_append, serialize_append, hau]
  rcases sp with - | spv <;> rcases ep with - | epv <;> rcases av with - | avv <;> rfl

/-- Claim C8: every non-empty transformer output has the fixed field
order — `TY`, `PY`, `JO`, `VL`, `T1`, `DO` (a DOI-resolver URL), the two
provenance constants `DB`/`DP`, `LA`, `UR`, then the optional `SP`, `EP`,
`AV` lines, then the authors last; each field is one `<CODE>  - <value>`
line with the code upper-cased, and the list-valued author field expands
to one `AU` line per element. -/
theorem get_ris_line_shape (e : JsonEntry) (name : String) (keep : Bool)
    (excl : List String) (lines : List String)
    (h : get_ris e name keep excl = .ok lines) (hne : lines ≠ []) :
    ∃ (ty y jo vl t1 doi u : String) (sp ep av : Option String) (au : List String),
      lines = ["TY  - " ++ ty, "PY  - " ++ y, "JO  - " ++ jo, "VL  - " ++ vl,
          "T1  - " ++ t1, "DO  - " ++ ("https://dx.doi.org/" ++ doi),
          "DB  - WoS", "DP  - WoS", "LA  - English", "UR  - " ++ u]
        ++ optLine "SP" sp ++ optLine "EP" ep ++ optLine "AV" av
        ++ au.map (fun a => "AU  - " ++ a) := by
  unfold get_ris at h
  split at h
  · exact absurd (Except.ok.inj h).symm hne
  · exact Except.noConfusion h
  · split at h
    · exact absurd (Except.ok.inj h).symm hne
    · split at h
      · exact Except.noConfusion h
      · split at h
        · exact Except.noConfusion h
        · split at h
          · exact Except.noConfusion h
          · split at h
            · exact Except.noConfusion h
            · split at h
              · exact Except.noConfusion h
              · split at h
                · exact Except.noConfusion h
                · split at h
                  · exact absurd (Except.ok.inj h).symm hne
                  · split at h
                    · exact Except.noConfusion h
                    · rename_i x5 doi rest hdois hexcl x4 pubinfo hy x3 dt dts hdt x2 ty
                        hgd x1 t ts ht x0 av hav r1 sel1 hsel hs r0 au hmk
                      obtain ⟨y, jo, vl, sp, ep⟩ := pubinfo
                      refine ⟨ty, toString (y.getD 0), jo, vl, t, doi,
                        "https://inspirehep.net/record/" ++ e.id, sp, ep, av, au, ?_⟩
                      rw [← Except.ok.inj h, serialize_mk_fields]

/-- Witness for Claim C8 at a concrete surviving record. -/
theorem get_ris_line_shape_witness :
    ∃ (ty y jo vl t1 doi u : String) (sp ep av : Option String) (au : List String),
      (["TY  - JOUR", "PY  - 2021", "JO  - JHEP", "VL  - 07", "T1  - T",
        "DO  - https://dx.doi.org/10.1/x", "DB  - WoS", "DP  - WoS", "LA  - English",
        "UR  - https://inspirehep.net/record/1852846",
        "AU  - Ehatäht, Karl"] : List String)
        = ["TY  - " ++ ty, "PY  - " ++ y, "JO  - " ++ jo, "VL  - " ++ vl,
            "T1  - " ++ t1, "DO  - " ++ ("https://dx.doi.org/" ++ doi),
            "DB  - WoS", "DP  - WoS", "LA  - English", "UR  - " ++ u]
          ++ optLine "SP" sp ++ optLine "EP" ep ++ optLine "AV" av
          ++ au.map (fun a => "AU  - " ++ a) :=
  get_ris_line_shape
    ⟨"1852846", ⟨some ["10.1/x"], [⟨some 2021, "JHEP", "07", none, none⟩], ["T"],
        ["article"],
        [{ full_name := "Ehatäht, Karl", affiliations := some ["NICPB, Tallinn"] }],
        none, none, none⟩⟩ "Ehatäht, Karl" false [] _ rfl (by decide)

/-- Claim C9: on HTTP 429 the loop sleeps the fixed 6-second cooldown and
re-issues the request to the same URL, with no retry cap: for a server
that answers `n` consecutive 429s and then a final page, the loop issues
exactly `n + 1` requests, all to the same URL, sleeps `6 * n` seconds
total, and then finishes normally with the page's records accumulated.
At `n = 2` (429, 429, 200) this is exactly three requests. -/
theorem fetchAll_rate_limit_retries (n : Nat) (u : String) (entries : List JsonEntry)
    (name : String) (keep : Bool) (excl : List String) (acc blocks : List String)
    (h : process_entries name keep excl entries = .ok blocks) :
    fetchAll name keep excl (List.replicate n .tooMany ++ [.page entries none]) (some u) acc
      = (List.replicate (n + 1) u, 6 * n, .finished (acc ++ blocks)) := by
  induction n with
  | zero =>
    simp only [List.replicate, List.nil_append]
    unfold fetchAll
    simp [fetchAll, h]
  | succ k ih =>
    rw [List.replicate_succ, List.cons_append]
    unfold fetchAll
    rw [ih]
    simp [List.replicate_succ, Nat.mul_succ]

/-- Witness for Claim C9: two 429s then a 200 page — exactly three
requests to the same URL, 12 seconds slept, normal completion. -/
theorem fetchAll_rate_limit_retries_witness :
    fetchAll "N" false [] [.tooMany, .tooMany, .page [] none]
      (some "https://inspirehep.net/api/literature?page=1") []
      = (["https://inspirehep.net/api/literature?page=1",
          "https://inspirehep.net/api/literature?page=1",
          "https://inspirehep.net/api/literature?page=1"], 12, .finished []) := by
  simpa using fetchAll_rate_limit_retries 2
    "https://inspirehep.net/api/literature?page=1" [] "N" false [] [] [] rfl

end RisDump
